import Mathlib

/-!
Verification of the rust-keylime attestation core: a shallow embedding of
`src/serialization.rs`, `src/revocation.rs` and `src/quotes_handler.rs`,
together with theorems settling the specification claims about them.

Bytes are modelled as `Nat` values below 256; strings as Lean `String`;
filesystem existence, the TPM facade, OpenSSL and serde are modelled as
explicit oracle parameters so that the embedded control flow is exactly the
Rust control flow.
-/

namespace Keylime

/-- Model of `serde_json::Value`. -/
inductive Json where
  | null
  | bool (b : Bool)
  | num (n : Int)
  | str (s : String)
  | arr (xs : List Json)
  | obj (fields : List (String × Json))

/-- `body["key"]` on a `serde_json::Value`: member lookup on objects,
`Null` for a missing member or a non-object. -/
def Json.index (j : Json) (key : String) : Json :=
  match j with
  | .obj fields =>
    match fields.find? (fun f => f.1 == key) with
    | some f => f.2
    | none => .null
  | _ => .null

/-- `Value::as_str`. -/
def Json.asStr : Json → Option String
  | .str s => some s
  | _ => none

/-! ## Base64 codec (`src/serialization.rs`, backed by the `base64` crate)

RFC 4648 standard alphabet with padding, the configuration used by
`base64::encode` / `base64::decode`. -/

/-- Character of a six-bit group in the standard base64 alphabet. -/
def b64Char (n : Nat) : Char :=
  if n < 26 then Char.ofNat (65 + n)
  else if n < 52 then Char.ofNat (97 + (n - 26))
  else if n < 62 then Char.ofNat (48 + (n - 52))
  else if n = 62 then '+'
  else '/'

/-- Six-bit group of a character in the standard base64 alphabet. -/
def b64Index (c : Char) : Option Nat :=
  if 'A' ≤ c ∧ c ≤ 'Z' then some (c.toNat - 65)
  else if 'a' ≤ c ∧ c ≤ 'z' then some (c.toNat - 97 + 26)
  else if '0' ≤ c ∧ c ≤ '9' then some (c.toNat - 48 + 52)
  else if c = '+' then some 62
  else if c = '/' then some 63
  else none

/-- Base64 encoding of a byte list, three bytes to four characters,
padded with `=`. -/
def encodeChunks : List Nat → List Char
  | [] => []
  | [a] => [b64Char (a / 4), b64Char (a % 4 * 16), '=', '=']
  | [a, b] => [b64Char (a / 4), b64Char (a % 4 * 16 + b / 16), b64Char (b % 16 * 4), '=']
  | a :: b :: c :: rest =>
    b64Char (a / 4) :: b64Char (a % 4 * 16 + b / 16) ::
      b64Char (b % 16 * 4 + c / 64) :: b64Char (c % 64) :: encodeChunks rest

/-- Base64 decoding, four characters to three bytes, accepting `=` padding
only in the final quartet and rejecting non-zero trailing bits (the
`base64` crate's default). -/
def decodeChunks : List Char → Option (List Nat)
  | [] => some []
  | c0 :: c1 :: c2 :: c3 :: rest =>
    match b64Index c0, b64Index c1 with
    | some s0, some s1 =>
      if c2 = '=' then
        if c3 = '=' ∧ rest = [] then
          if s1 % 16 = 0 then some [s0 * 4 + s1 / 16] else none
        else none
      else
        match b64Index c2 with
        | some s2 =>
          if c3 = '=' then
            if rest = [] then
              if s2 % 4 = 0 then some [s0 * 4 + s1 / 16, s1 % 16 * 16 + s2 / 4] else none
            else none
          else
            match b64Index c3 with
            | some s3 =>
              (decodeChunks rest).map
                (fun bs => (s0 * 4 + s1 / 16) :: (s1 % 16 * 16 + s2 / 4) :: (s2 % 4 * 64 + s3) :: bs)
            | none => none
        | none => none
    | _, _ => none
  | _ => some []

/-- `base64::encode`. -/
def base64_encode (bs : List Nat) : String :=
  String.mk (encodeChunks bs)

/-- `base64::decode`. -/
def base64_decode (s : String) : Option (List Nat) :=
  decodeChunks s.data

/-- `serialize_as_base64`: serialize a byte slice as a base64 JSON string. -/
def serialize_as_base64 (bytes : List Nat) : Json :=
  .str (base64_encode bytes)

/-- `deserialize_as_base64`: expect a JSON string and base64-decode it. -/
def deserialize_as_base64 : Json → Except String (List Nat)
  | .str s =>
    match base64_decode s with
    | some bs => .ok bs
    | none => .error "invalid base64"
  | _ => .error "invalid type: expected a string"

/-- `serialize_maybe_base64`: `Some` bytes become a base64 JSON string,
`None` becomes JSON `null`. -/
def serialize_maybe_base64 : Option (List Nat) → Json
  | some value => .str (base64_encode value)
  | none => .null

/-- `deserialize_maybe_base64`: `null` becomes `None`, anything else is
decoded through `deserialize_as_base64` (the `WrappedBase64Encoded` field). -/
def deserialize_maybe_base64 : Json → Except String (Option (List Nat))
  | .null => .ok none
  | j => (deserialize_as_base64 j).map some

/-! ## Revocation executor (`src/revocation.rs`)

Paths are modelled as strings; `Path::join` on a directory without a
trailing slash and a relative component is string concatenation with `/`.
Action names are treated as single path components (no `/`), which is how
they arrive from the comma- or newline-separated action lists.
Filesystem existence is an oracle predicate `ex : String → Bool`. -/

/-- The error type of the agent (`crate::error::Error`), restricted to the
variants these functions produce. -/
inductive RError where
  | invalidRequest
  | notFound (msg : String)
  | other (msg : String)
  | configuration (msg : String)
  | crypto
  | io
  | serdeJson
  | persist
  | script (action : String)
  deriving Repr, DecidableEq

/-- `PathBuf::set_extension("py")` preliminary: on the reversed character
list, drop the final extension (everything after the last dot), provided
that dot is not the leading character of the name; `none` when the name has
no extension. -/
def dropExtRev : List Char → Option (List Char)
  | [] => none
  | c :: rest =>
    if c = '.' then (if rest = [] then none else some rest)
    else dropExtRev rest

/-- `PathBuf::from(action).set_extension("py")` for a single-component
relative path: replace the final extension by `py`, or append `.py` when
there is none. -/
def setExtPy (s : String) : String :=
  match dropExtRev s.data.reverse with
  | some stemRev => String.mk (stemRev.reverse ++ ['.', 'p', 'y'])
  | none => s ++ ".py"

/-- `PathBuf::from(action).file_name()` is `None` for a single-component
relative path exactly when the component is empty, `.` or `..`; in that
case `set_extension` returns `false` and `lookup_action` errors out. -/
def fileNameIsNone (s : String) : Bool :=
  s == "" || s == "." || s == ".."

/-- `lookup_action`: resolve an action name to the command to execute,
searching `actions_dir` then `payload_dir` for the native name and then for
the `set_extension("py")` name, skipping payload candidates when payload
actions are not allowed; a `.py` hit is replaced by the pre-installed
`shim.py`. Returns `(command, is_python, is_payload)`. -/
def lookup_action (ex : String → Bool) (payload_dir actions_dir action : String)
    (allow_payload_actions : Bool) : Except RError (String × Bool × Bool) :=
  if fileNameIsNone action then
    .error (.other ("unable to set action " ++ action ++ " extension"))
  else
    let py_action := setExtPy action
    let possible_paths : List (String × Bool × Bool) :=
      [ (actions_dir ++ "/" ++ action, false, false),
        (payload_dir ++ "/" ++ action, false, true),
        (actions_dir ++ "/" ++ py_action, true, false),
        (payload_dir ++ "/" ++ py_action, true, true) ]
    match (possible_paths.filter (fun t => !t.2.2 || allow_payload_actions)).find?
        (fun t => ex t.1) with
    | none => .error (.notFound ("Could not find action " ++ action))
    | some (script, is_python, is_payload) =>
      let command := if is_python then actions_dir ++ "/shim.py" else script
      .ok (command, is_python, is_payload)

/-- The `Command` built by `run_action` before `spawn`: program, argv tail
and the optional `PYTHONPATH` entry (working directory is always
`work_dir`; stdin/stdout/stderr are piped). -/
structure SpawnSpec where
  prog : String
  args : List String
  cwd : String
  pythonpath : Option String
  deriving Repr, DecidableEq

/-- `std::process::Output`, restricted to what the code inspects. -/
structure ProcOutput where
  success : Bool
  stdout : List Nat
  stderr : List Nat
  deriving Repr, DecidableEq

/-- Observable side effects of the revocation pipeline. `removeFile` is the
`fs::remove_file` call on the temporary JSON file; `spawn` is the
`Command::spawn` call. -/
inductive Event where
  | createTemp (path : String)
  | removeFile (path : String)
  | spawn (spec : SpawnSpec)
  | callRunRevocationActions
  | tpmQuote
  | readMeasurementList (nth : Nat)
  deriving Repr, DecidableEq

/-- Oracle outcomes of the I/O performed by one `run_action` call:
temporary-file creation, `NamedTempFile::keep`, `Command::spawn`,
`Child::wait_with_output` and `fs::remove_file`. -/
structure RunEnv where
  tmpPath : Except RError String
  keepOk : Bool
  spawnOk : Bool
  wait : Except RError ProcOutput
  removeOk : Bool

/-- `run_action`: resolve the action, write the JSON payload to a temporary
file in `work_dir`, spawn the command and wait for it; the result is paired
with the trace of side effects. A failing `keep` drops the guard, which
deletes the file; a failing `spawn` returns through `?` without any
`remove_file` call. -/
def run_action (ex : String → Bool) (env : RunEnv) (payload_dir actions_dir action : String)
    (_json : Json) (allow_payload_actions : Bool) (work_dir : String) :
    Except RError ProcOutput × List Event :=
  match lookup_action ex payload_dir actions_dir action allow_payload_actions with
  | .error e => (.error e, [])
  | .ok (command, is_python, is_payload) =>
    match env.tmpPath with
    | .error e => (.error e, [])
    | .ok json_path =>
      if !env.keepOk then
        (.error .persist, [.createTemp json_path, .removeFile json_path])
      else
        let spec : SpawnSpec :=
          if is_python then
            { prog := command, args := [action, json_path], cwd := work_dir,
              pythonpath := some (if is_payload then payload_dir else actions_dir) }
          else
            { prog := command, args := [json_path], cwd := work_dir, pythonpath := none }
        if !env.spawnOk then
          (.error .io, [.createTemp json_path, .spawn spec])
        else
          match env.wait with
          | .ok output =>
            if !env.removeOk then
              (.error .io, [.createTemp json_path, .spawn spec, .removeFile json_path])
            else if !output.success then
              (.error (.script action),
                [.createTemp json_path, .spawn spec, .removeFile json_path])
            else
              (.ok output, [.createTemp json_path, .spawn spec, .removeFile json_path])
          | .error e =>
            if !env.removeOk then
              (.error .io, [.createTemp json_path, .spawn spec, .removeFile json_path])
            else
              (.error e, [.createTemp json_path, .spawn spec, .removeFile json_path])

/-- The result of a body of code that may also `panic!` (through `expect`),
aborting the whole process rather than returning. -/
inductive Outcome (α : Type) where
  | ok (a : α)
  | err (e : RError)
  | aborted (msg : String)

def Outcome.isErr {α : Type} : Outcome α → Bool
  | .err _ => true
  | _ => false

/-- Split on a separator character, trim each piece and drop empty pieces:
the treatment of both `config_actions` (on `,`) and the `action_list` file
contents (on `\n`). -/
def splitTrimNonempty (sep : Char) (s : String) : List String :=
  ((s.split (· = sep)).map String.trim).filter (· ≠ "")

/-- Oracles for `run_revocation_actions`: the secure mount, the
`action_list` file and a `RunEnv` per executed action. -/
structure ActionsEnv where
  mount : Except RError String
  actionFileRead : Except Unit String
  runEnv : String → RunEnv

/-- Run each action of the list in order through `run_action`; the first
failure aborts the remaining actions and surfaces `Error::Script` with the
failing action's name. -/
def runActionList (ex : String → Bool) (env : ActionsEnv) (json : Json)
    (unzipped actions_dir : String) (allow : Bool) (work_dir : String) :
    List String → Outcome (List ProcOutput) × List Event
  | [] => (.ok [], [])
  | action :: rest =>
    let (r, evs) := run_action ex (env.runEnv action) unzipped actions_dir action json
      allow work_dir
    match r with
    | .error _ => (.err (.script action), evs)
    | .ok output =>
      let (r2, evs2) := runActionList ex env json unzipped actions_dir allow work_dir rest
      match r2 with
      | .ok outputs => (.ok (output :: outputs), evs ++ evs2)
      | .err e => (.err e, evs ++ evs2)
      | .aborted m => (.aborted m, evs ++ evs2)

/-- `run_revocation_actions`: mount the secure directory, build the action
list as config actions followed by the entries of
`<mount>/unzipped/action_list` when that file exists (an unreadable file
panics through `expect`), and run each action in order. -/
def run_revocation_actions (ex : String → Bool) (env : ActionsEnv) (json : Json)
    (_secure_size config_actions actions_dir : String) (allow : Bool) (work_dir : String) :
    Outcome (List ProcOutput) × List Event :=
  match env.mount with
  | .error e => (.err e, [])
  | .ok mountPoint =>
    let configList := splitTrimNonempty ',' config_actions
    let unzipped := mountPoint ++ "/unzipped"
    let action_file := unzipped ++ "/action_list"
    if ex action_file then
      match env.actionFileRead with
      | .error _ => (.aborted "unable to read action_list", [])
      | .ok action_data =>
        let action_list := configList ++ splitTrimNonempty '\n' action_data
        runActionList ex env json unzipped actions_dir allow work_dir action_list
    else
      runActionList ex env json unzipped actions_dir allow work_dir configList

/-- Oracles for `process_revocation`: certificate canonicalization,
`load_x509`, public-key extraction, `asym_verify` and `serde_json`
parsing, plus the filesystem predicate and action oracles. -/
structure RevEnv where
  canonicalize : Except RError String
  loadX509Ok : Bool
  pubKeyOk : Bool
  verify : String → String → Except Unit Bool
  parseJson : String → Except Unit Json
  ex : String → Bool
  actions : ActionsEnv

/-- `process_revocation`: require string `signature` and `msg` members,
canonicalize and load the pinned certificate, verify the signature, and
only on a `true` verification parse `msg` and run the revocation actions. -/
def process_revocation (env : RevEnv) (body : Json)
    (secure_size config_actions actions_dir : String) (allow : Bool) (work_dir : String) :
    Outcome Unit × List Event :=
  match (body.index "signature").asStr with
  | none => (.err .invalidRequest, [])
  | some signature =>
    match (body.index "msg").asStr with
    | none => (.err .invalidRequest, [])
    | some message =>
      match env.canonicalize with
      | .error e => (.err e, [])
      | .ok _ =>
        if !env.loadX509Ok then
          (.err (.configuration "Cannot load pubkey from revocation certificate"), [])
        else if !env.pubKeyOk then
          (.err .crypto, [])
        else
          match env.verify message signature with
          | .ok true =>
            match env.parseJson message with
            | .error _ => (.err .serdeJson, [])
            | .ok msg_payload =>
              let (r, evs) := run_revocation_actions env.ex env.actions msg_payload
                secure_size config_actions actions_dir allow work_dir
              match r with
              | .ok _ => (.ok (), .callRunRevocationActions :: evs)
              | .err e => (.err e, .callRunRevocationActions :: evs)
              | .aborted m => (.aborted m, .callRunRevocationActions :: evs)
          | _ => (.err .invalidRequest, [])

/-- What one iteration of the `run_revocation_service` subscriber loop does
with a received frame: `next` loops to the next message; `terminated`
leaves the loop — either because `serde_json::from_str(rawbody)?` returned
the error from the whole function, or because processing panicked. The
result of `process_revocation` itself is discarded (`let _ = ...`). -/
inductive LoopStep where
  | next
  | terminated (r : Outcome Unit)

/-- One iteration of the `run_revocation_service` loop over a frame
received from 0mq (`Err` = socket error, `Ok (Err)` = non-UTF-8 payload,
`Ok (Ok raw)` = a raw string frame). -/
def run_revocation_service_step (env : RevEnv)
    (secure_size config_actions actions_dir : String) (allow : Bool) (work_dir : String)
    (frame : Except Unit (Except Unit String)) : LoopStep :=
  match frame with
  | .error _ => .next
  | .ok (.error _) => .next
  | .ok (.ok rawbody) =>
    match env.parseJson rawbody with
    | .error _ => .terminated (.err .serdeJson)
    | .ok body =>
      match (process_revocation env body secure_size config_actions actions_dir
          allow work_dir).1 with
      | .aborted m => .terminated (.aborted m)
      | _ => .next

/-! ## Quote handlers (`src/quotes_handler.rs`)

The handlers are parameterized by the character predicate `isAlnum`
standing for Rust `char::is_alphanumeric` (Unicode `Alphabetic` plus
`Number`; on ASCII it agrees with `Char.isAlphanum`), the constant
`tpm::MAX_NONCE_SIZE`, and an oracle environment for the TPM facade,
OpenSSL PEM export, the measured-boot file and the IMA reader. -/

/-- The `KeylimeQuote` response record. -/
structure KeylimeQuote where
  quote : String
  hash_alg : String
  enc_alg : String
  sign_alg : String
  pubkey : Option String
  ima_measurement_list : Option String
  mb_measurement_list : Option (List Nat)
  ima_measurement_list_entry : Option Nat
  deriving Repr, DecidableEq

/-- An HTTP response: `success` wraps the quote in the 200 envelope,
`error` is `JsonWrapper::error(code, msg)`. -/
inductive Resp where
  | success (q : KeylimeQuote)
  | error (code : Nat) (msg : String)
  deriving Repr, DecidableEq

/-- `str::parse::<u64>()`: an optional leading `+`, then one or more ASCII
digits, value below `2^64`. -/
def parseU64 (s : String) : Option Nat :=
  let ds := match s.data with
    | '+' :: rest => rest
    | cs => cs
  if ds = [] then none
  else if ds.all Char.isDigit then
    let v := ds.foldl (fun a c => a * 10 + (c.toNat - 48)) 0
    if v < 2 ^ 64 then some v else none
  else none

/-- Oracles used by the `identity` handler: `tpm::quote` (whose success
value has `pubkey` and the measurement-list fields still unset) and
`crypto::pkey_pub_to_pem`. -/
structure IdentEnv where
  tpmQuote : Except Unit KeylimeQuote
  pkeyPem : Except Unit String

/-- The `identity` quote handler over the query parameter `nonce`. -/
def identity (isAlnum : Char → Bool) (maxNonceSize : Nat) (env : IdentEnv)
    (nonce : String) : Resp × List Event :=
  if !(nonce.data.all isAlnum) then
    (.error 400 ("Parameters should be strictly alphanumeric: " ++ nonce), [])
  else if nonce.utf8ByteSize > maxNonceSize then
    (.error 400 ("Nonce is too long (max size " ++ toString maxNonceSize ++ "): " ++ nonce),
      [])
  else
    match env.tpmQuote with
    | .error _ => (.error 500 "Unable to retrieve quote", [.tpmQuote])
    | .ok quote =>
      match env.pkeyPem with
      | .ok pubkey => (.success { quote with pubkey := some pubkey }, [.tpmQuote])
      | .error _ => (.error 500 "Unable to retrieve quote", [.tpmQuote])

/-- The query parameters of the `integrity` handler (`partFlag` models the
query key named in the 400 message below). -/
structure IntegParam where
  nonce : String
  mask : String
  partFlag : String
  ima_ml_entry : Option String

/-- Oracles used by the `integrity` handler: PEM export, `tpm::quote`,
`tpm::check_mask(mask, PcrSlot::Slot0)`, the `measuredboot_ml_path` read
and `read_measurement_list` as a function of the requested offset. -/
structure IntegEnv where
  pkeyPem : Except Unit String
  tpmQuote : Except Unit KeylimeQuote
  checkMask : Except Unit Bool
  mbRead : Except Unit (List Nat)
  readML : Nat → Except Unit (Option String × Option Nat × Nat)

/-- The `integrity` quote handler. -/
def integrity (isAlnum : Char → Bool) (maxNonceSize : Nat) (env : IntegEnv)
    (p : IntegParam) : Resp × List Event :=
  if !(p.nonce.data.all isAlnum) then
    (.error 400 ("nonce should be strictly alphanumeric: " ++ p.nonce), [])
  else if !(p.mask.data.all isAlnum) then
    (.error 400 ("mask should be strictly alphanumeric: " ++ p.mask), [])
  else if p.nonce.utf8ByteSize > maxNonceSize then
    (.error 400 ("Nonce is too long (max size: " ++ toString maxNonceSize ++ "): "
      ++ toString p.nonce.utf8ByteSize), [])
  else
    let pubkeyStep : Except Resp (Option String) :=
      if p.partFlag = "0" then
        match env.pkeyPem with
        | .ok pubkey => .ok (some pubkey)
        | .error _ => .error (.error 500 "Unable to retrieve public key")
      else if p.partFlag = "1" then .ok none
      else
        .error (.error 400 "uri must contain key \x27partial\x27 and value \x270\x27 or \x271\x27")
    match pubkeyStep with
    | .error r => (r, [])
    | .ok pubkey =>
      let nth_entry : Nat :=
        match p.ima_ml_entry with
        | none => 0
        | some idx => (parseU64 idx).getD 0
      match env.tpmQuote with
      | .error _ => (.error 500 "Unable to retrieve quote", [.tpmQuote])
      | .ok id_quote =>
        let mbStep : Except Resp (Option (List Nat)) :=
          match env.checkMask with
          | .ok true =>
            match env.mbRead with
            | .ok ml => .ok (some ml)
            | .error _ => .ok none
          | .error _ => .error (.error 500 "Unable to retrieve quote")
          | .ok false => .ok none
        match mbStep with
        | .error r => (r, [.tpmQuote])
        | .ok mb_measurement_list =>
          match env.readML nth_entry with
          | .error _ =>
            (.error 500 "Unable to retrieve quote", [.tpmQuote, .readMeasurementList nth_entry])
          | .ok (ima_measurement_list, ima_measurement_list_entry, _num_entries) =>
            (.success
              { id_quote with
                pubkey := pubkey
                ima_measurement_list := ima_measurement_list
                mb_measurement_list := mb_measurement_list
                ima_measurement_list_entry := ima_measurement_list_entry },
              [.tpmQuote, .readMeasurementList nth_entry])


/-! ## Claim-support definitions -/

/-- The candidate-path list exactly as claim C2 words it: the third and
fourth candidates append `.py` to the action name. -/
def claimC2Candidates (payload_dir actions_dir action : String) : List String :=
  [ actions_dir ++ "/" ++ action,
    payload_dir ++ "/" ++ action,
    actions_dir ++ "/" ++ (action ++ ".py"),
    payload_dir ++ "/" ++ (action ++ ".py") ]

/-- The resolution ladder of `lookup_action` written as a cascade, used to
state the amended claim C2: candidates in order `actions_dir/a`,
`payload_dir/a`, `actions_dir/a2`, `payload_dir/a2` where
`a2 = set_extension(a, "py")`, payload candidates skipped unless
allowed, `.py` hits replaced by the shim, `NotFound` when nothing matches,
and an early error for names without a file name. -/
def lookupActionSpec (ex : String → Bool) (payload_dir actions_dir action : String)
    (allow : Bool) : Except RError (String × Bool × Bool) :=
  if fileNameIsNone action then
    .error (.other ("unable to set action " ++ action ++ " extension"))
  else if ex (actions_dir ++ "/" ++ action) then
    .ok (actions_dir ++ "/" ++ action, false, false)
  else if allow && ex (payload_dir ++ "/" ++ action) then
    .ok (payload_dir ++ "/" ++ action, false, true)
  else if ex (actions_dir ++ "/" ++ setExtPy action) then
    .ok (actions_dir ++ "/shim.py", true, false)
  else if allow && ex (payload_dir ++ "/" ++ setExtPy action) then
    .ok (actions_dir ++ "/shim.py", true, true)
  else
    .error (.notFound ("Could not find action " ++ action))

/-- A fixed TPM quote value used by concrete witnesses. -/
def qFix : KeylimeQuote :=
  { quote := "rAAAA:BBBB:CCCC", hash_alg := "sha256", enc_alg := "rsa", sign_alg := "rsassa",
    pubkey := none, ima_measurement_list := none, mb_measurement_list := none,
    ima_measurement_list_entry := none }

/-- Identity-handler oracles with every stage succeeding. -/
def envIdOk : IdentEnv := { tpmQuote := .ok qFix, pkeyPem := .ok "PEMKEY" }

/-- Identity-handler oracles where PEM export of the NK public key fails. -/
def envIdPemErr : IdentEnv := { tpmQuote := .ok qFix, pkeyPem := .error () }

/-- Restriction of Rust `char::is_alphanumeric` to the characters exercised
by the claim C4 counterexample: it agrees with the real predicate on ASCII
(where Unicode alphanumeric coincides with the set A-Z, a-z, 0-9) and on
U+00E9, which is Unicode `Alphabetic` and hence accepted by the Rust
predicate. -/
def isAlnumCE (c : Char) : Bool :=
  c.isAlphanum || c == 'é'

/-- Integrity-handler oracles: measured boot masked in but unreadable,
everything else succeeding. -/
def envIntegMbErr : IntegEnv :=
  { pkeyPem := .ok "PEMKEY", tpmQuote := .ok qFix, checkMask := .ok true,
    mbRead := .error (), readML := fun _ => .ok (some "imalog", none, 5) }

/-- Integrity-handler oracles: the PCR mask fails to parse in
`tpm::check_mask`. -/
def envIntegMaskErr : IntegEnv :=
  { pkeyPem := .ok "PEMKEY", tpmQuote := .ok qFix, checkMask := .error (),
    mbRead := .ok [1, 2], readML := fun _ => .ok (some "imalog", none, 5) }

/-- Integrity-handler oracles with every stage succeeding and PCR 0 not in
the mask. -/
def envIntegOk : IntegEnv :=
  { pkeyPem := .ok "PEMKEY", tpmQuote := .ok qFix, checkMask := .ok false,
    mbRead := .ok [1, 2], readML := fun _ => .ok (some "imalog", none, 5) }

/-- Integrity-handler oracles where PEM export fails. -/
def envIntegPemErr : IntegEnv :=
  { pkeyPem := .error (), tpmQuote := .ok qFix, checkMask := .ok false,
    mbRead := .ok [1, 2], readML := fun _ => .ok (some "imalog", none, 5) }

/-- A well-formed integrity request (`partial = "1"`, no IMA offset). -/
def pFix : IntegParam :=
  { nonce := "N0nce", mask := "0x408000", partFlag := "1", ima_ml_entry := none }

/-- A `run_action` environment whose `Command::spawn` fails (for example,
an interpreted action resolved from the payload while `actions_dir/shim.py`
does not exist); everything earlier succeeds. -/
def envC7 : RunEnv :=
  { tmpPath := .ok "work/.tmpjsonXYZ", keepOk := true, spawnOk := false,
    wait := .ok { success := true, stdout := [], stderr := [] }, removeOk := true }

/-- A fully healthy `run_action` environment. -/
def envRunOk : RunEnv :=
  { tmpPath := .ok "work/.tmpjsonXYZ", keepOk := true, spawnOk := true,
    wait := .ok { success := true, stdout := [], stderr := [] }, removeOk := true }

/-- Revocation oracles for the C1 witness: certificate loads, signature
verification returns `Ok(false)`. -/
def envC1 : RevEnv :=
  { canonicalize := .ok "/var/lib/keylime/secure/unzipped/RevocationNotifier-cert.crt",
    loadX509Ok := true, pubKeyOk := true,
    verify := fun _ _ => .ok false,
    parseJson := fun _ => .ok Json.null,
    ex := fun _ => false,
    actions := { mount := .ok "/var/lib/keylime/tmpfs-dev", actionFileRead := .ok "",
                 runEnv := fun _ => envRunOk } }

/-- A revocation message whose signature does not verify under `envC1`. -/
def bodyC1 : Json :=
  .obj [("msg", .str "\x7b\x7d"), ("signature", .str "c2lnbmF0dXJl")]

/-- Revocation oracles for the C6 frame: `serde_json::from_str` fails on
the received frame (the frame below is not JSON), so `parseJson` errors. -/
def envC6 : RevEnv :=
  { canonicalize := .ok "/var/lib/keylime/secure/unzipped/RevocationNotifier-cert.crt",
    loadX509Ok := true, pubKeyOk := true,
    verify := fun _ _ => .ok true,
    parseJson := fun _ => .error (),
    ex := fun _ => false,
    actions := { mount := .ok "/var/lib/keylime/tmpfs-dev", actionFileRead := .ok "",
                 runEnv := fun _ => envRunOk } }

/-! ## Theorems -/

theorem b64Index_b64Char : ∀ n, n < 64 → b64Index (b64Char n) = some n := by
  decide

theorem b64Char_ne_pad : ∀ n, n < 64 → b64Char n ≠ '=' := by
  decide

theorem decodeChunks_encodeChunks (bs : List Nat) (h : ∀ x ∈ bs, x < 256) :
    decodeChunks (encodeChunks bs) = some bs := by
  match bs with
  | [] => rfl
  | [a] =>
    have ha : a < 256 := h a (by simp)
    simp only [encodeChunks, decodeChunks]
    rw [b64Index_b64Char _ (by omega), b64Index_b64Char _ (by omega)]
    simp only [reduceIte, and_self, if_true]
    rw [if_pos (by omega)]
    congr 2
    omega
  | [a, b] =>
    have ha : a < 256 := h a (by simp)
    have hb : b < 256 := h b (by simp)
    have h0 : b64Index (b64Char (a / 4)) = some (a / 4) := b64Index_b64Char _ (by omega)
    have h1 : b64Index (b64Char (a % 4 * 16 + b / 16)) = some (a % 4 * 16 + b / 16) :=
      b64Index_b64Char _ (by omega)
    have h2 : b64Index (b64Char (b % 16 * 4)) = some (b % 16 * 4) :=
      b64Index_b64Char _ (by omega)
    have n2 : ¬(b64Char (b % 16 * 4) = '=') := b64Char_ne_pad _ (by omega)
    have m2 : b % 16 * 4 % 4 = 0 := by omega
    simp only [encodeChunks, decodeChunks, h0, h1, h2, if_neg n2, m2, reduceIte,
      Option.some.injEq, List.cons.injEq, and_true]
    omega
  | a :: b :: c :: d :: rest =>
    have ha : a < 256 := h a (by simp)
    have hb : b < 256 := h b (by simp)
    have hc : c < 256 := h c (by simp)
    have ih := decodeChunks_encodeChunks (d :: rest) (fun x hx => h x (by simp at hx ⊢; tauto))
    have h0 : b64Index (b64Char (a / 4)) = some (a / 4) := b64Index_b64Char _ (by omega)
    have h1 : b64Index (b64Char (a % 4 * 16 + b / 16)) = some (a % 4 * 16 + b / 16) :=
      b64Index_b64Char _ (by omega)
    have h2 : b64Index (b64Char (b % 16 * 4 + c / 64)) = some (b % 16 * 4 + c / 64) :=
      b64Index_b64Char _ (by omega)
    have h3 : b64Index (b64Char (c % 64)) = some (c % 64) := b64Index_b64Char _ (by omega)
    have n2 : ¬(b64Char (b % 16 * 4 + c / 64) = '=') := b64Char_ne_pad _ (by omega)
    have n3 : ¬(b64Char (c % 64) = '=') := b64Char_ne_pad _ (by omega)
    simp only [encodeChunks, decodeChunks, h0, h1, h2, h3, if_neg n2, if_neg n3, ih,
      Option.map_some', Option.some.injEq, List.cons.injEq, and_true]
    omega
  | [a, b, c] =>
    have ha : a < 256 := h a (by simp)
    have hb : b < 256 := h b (by simp)
    have hc : c < 256 := h c (by simp)
    have h0 : b64Index (b64Char (a / 4)) = some (a / 4) := b64Index_b64Char _ (by omega)
    have h1 : b64Index (b64Char (a % 4 * 16 + b / 16)) = some (a % 4 * 16 + b / 16) :=
      b64Index_b64Char _ (by omega)
    have h2 : b64Index (b64Char (b % 16 * 4 + c / 64)) = some (b % 16 * 4 + c / 64) :=
      b64Index_b64Char _ (by omega)
    have h3 : b64Index (b64Char (c % 64)) = some (c % 64) := b64Index_b64Char _ (by omega)
    have n2 : ¬(b64Char (b % 16 * 4 + c / 64) = '=') := b64Char_ne_pad _ (by omega)
    have n3 : ¬(b64Char (c % 64) = '=') := b64Char_ne_pad _ (by omega)
    simp only [encodeChunks, decodeChunks, h0, h1, h2, h3, if_neg n2, if_neg n3,
      Option.map_some', Option.some.injEq, List.cons.injEq, and_true]
    omega


/-- C10: the base64 codec round-trips, and `serialize_maybe_base64` emits
`null` exactly on `None`. -/
theorem claim_C10_base64_roundtrip :
    (∀ b : List Nat, (∀ x ∈ b, x < 256) →
       deserialize_as_base64 (serialize_as_base64 b) = .ok b) ∧
    (∀ o : Option (List Nat), (∀ l, o = some l → ∀ x ∈ l, x < 256) →
       deserialize_maybe_base64 (serialize_maybe_base64 o) = .ok o) ∧
    (∀ o : Option (List Nat), serialize_maybe_base64 o = Json.null ↔ o = none) := by
  have enc : ∀ b : List Nat, (∀ x ∈ b, x < 256) →
      deserialize_as_base64 (serialize_as_base64 b) = .ok b := by
    intro b hb
    have h := decodeChunks_encodeChunks b hb
    simp only [serialize_as_base64, deserialize_as_base64, base64_decode, base64_encode]
    rw [h]
  refine ⟨enc, ?_, ?_⟩
  · intro o ho
    match o with
    | none => rfl
    | some l =>
      have h := enc l (ho l rfl)
      simp only [serialize_maybe_base64, deserialize_maybe_base64]
      rw [show serialize_as_base64 l = Json.str (base64_encode l) from rfl] at h
      rw [h]
      rfl
  · intro o
    match o with
    | none => simp [serialize_maybe_base64]
    | some l =>
      simp only [serialize_maybe_base64]
      constructor
      · intro h
        exact absurd h (by simp)
      · intro h
        cases h

/-- Witness for C10 at concrete inputs. -/
theorem claim_C10_base64_roundtrip_witness :
    deserialize_as_base64 (serialize_as_base64 [0, 77, 255, 3]) = .ok [0, 77, 255, 3] ∧
    deserialize_maybe_base64 (serialize_maybe_base64 (some [10, 200])) = .ok (some [10, 200]) ∧
    (serialize_maybe_base64 none = Json.null ↔ (none : Option (List Nat)) = none) :=
  ⟨claim_C10_base64_roundtrip.1 _ (by decide),
   claim_C10_base64_roundtrip.2.1 _ (by intro l h; injection h with h; subst h; decide),
   claim_C10_base64_roundtrip.2.2 none⟩


/-- C2 counterexample: the claim forms the third candidate as
`actions_dir/a.py` (appending `.py`) and says the first existing candidate
is returned. On the action name `x.sh`, the existing appended candidate
`d/x.sh.py` is not examined (the code replaces the `sh` extension, probing
`d/x.py`), so `lookup_action` reports `NotFound`; and on the action `y`
whose only existing candidate is `d/y.py`, the value returned is the shim
path, not that candidate. -/
theorem claim_C2_counterexample :
    ((claimC2Candidates "p" "d" "x.sh").any (fun q => q == "d/x.sh.py") = true ∧
      lookup_action (fun q => q == "d/x.sh.py") "p" "d" "x.sh" true
        = .error (.notFound "Could not find action x.sh")) ∧
    (lookup_action (fun q => q == "d/y.py") "p" "d" "y" true
        = .ok ("d/shim.py", true, false) ∧
      ("d/shim.py" : String) ≠ "d/y.py") :=
  ⟨⟨by decide, rfl⟩, ⟨rfl, by decide⟩⟩

/-- C2 amended: `lookup_action` searches `actions_dir/a`, `payload_dir/a`,
`actions_dir/a2`, `payload_dir/a2` in this order, where `a2` is `a` with
its final extension replaced by `py` (Rust `set_extension`); payload
candidates are skipped when payload actions are not allowed; the first
existing candidate is selected, a `.py` selection yielding the command
`actions_dir/shim.py`; no match yields NotFound "Could not find action a";
a name without a file name errors out before the search. When payload
actions are not allowed, the returned command is never under
`payload_dir`: it is `actions_dir/a` or `actions_dir/shim.py`. -/
theorem claim_C2_lookup_ladder (ex : String → Bool)
    (payload_dir actions_dir action : String) (allow : Bool)
    (_h : ('/' : Char) ∉ action.data) :
    lookup_action ex payload_dir actions_dir action allow
      = lookupActionSpec ex payload_dir actions_dir action allow ∧
    (allow = false → ∀ cmd py pl,
      lookup_action ex payload_dir actions_dir action allow = .ok (cmd, py, pl) →
      pl = false ∧
        (cmd = actions_dir ++ "/" ++ action ∨ cmd = actions_dir ++ "/shim.py")) := by
  have main : lookup_action ex payload_dir actions_dir action allow
      = lookupActionSpec ex payload_dir actions_dir action allow := by
    unfold lookup_action lookupActionSpec
    by_cases h0 : fileNameIsNone action = true
    · simp [h0]
    · rw [if_neg h0, if_neg h0]
      cases allow
      · by_cases e1 : ex (actions_dir ++ "/" ++ action) <;>
          by_cases e3 : ex (actions_dir ++ "/" ++ setExtPy action) <;>
          simp [List.filter, List.find?, e1, e3]
      · by_cases e1 : ex (actions_dir ++ "/" ++ action) <;>
          by_cases e2 : ex (payload_dir ++ "/" ++ action) <;>
          by_cases e3 : ex (actions_dir ++ "/" ++ setExtPy action) <;>
          by_cases e4 : ex (payload_dir ++ "/" ++ setExtPy action) <;>
          simp [List.filter, List.find?, e1, e2, e3, e4]
  refine ⟨main, ?_⟩
  intro hallow cmd py pl hok
  subst hallow
  rw [main] at hok
  unfold lookupActionSpec at hok
  by_cases h0 : fileNameIsNone action = true
  · simp [h0] at hok
  · rw [if_neg h0] at hok
    by_cases e1 : ex (actions_dir ++ "/" ++ action)
    · rw [if_pos e1] at hok
      injection hok with hok
      refine ⟨?_, Or.inl ?_⟩ <;> simp_all
    · rw [if_neg e1] at hok
      simp only [Bool.false_and, Bool.false_eq_true, if_false] at hok
      by_cases e3 : ex (actions_dir ++ "/" ++ setExtPy action)
      · rw [if_pos e3] at hok
        injection hok with hok
        refine ⟨?_, Or.inr ?_⟩ <;> simp_all
      · rw [if_neg e3] at hok
        simp at hok

/-- Witness for C2 at a concrete input: the action `w`, present only as the
native pre-installed `d/w`, resolves identically in code and ladder, and
with payload actions disallowed the returned command is under
`actions_dir`. -/
theorem claim_C2_lookup_ladder_witness :
    (lookup_action (fun q => q == "d/w") "p" "d" "w" false
        = lookupActionSpec (fun q => q == "d/w") "p" "d" "w" false) ∧
    ("d/w" : String) = "d" ++ "/" ++ "w" ∧
    lookup_action (fun q => q == "d/w") "p" "d" "w" false = .ok ("d/w", false, false) := by
  have h := claim_C2_lookup_ladder (fun q => q == "d/w") "p" "d" "w" false (by decide)
  exact ⟨h.1, by decide, rfl⟩


/-- C3: whenever `lookup_action` resolves an action as interpreted
(`is_python = true`), the command it returns is `actions_dir/shim.py`, and
the process spawned by `run_action` is that shim with the original action
name as first argument, ahead of the JSON payload path (with `PYTHONPATH`
pointing at the action source directory). -/
theorem claim_C3_interpreted_runs_shim (ex : String → Bool) (env : RunEnv)
    (payload_dir actions_dir action : String) (json : Json) (allow : Bool)
    (work_dir : String) (cmd : String) (is_payload : Bool) (tmp : String)
    (hlookup : lookup_action ex payload_dir actions_dir action allow
      = .ok (cmd, true, is_payload))
    (htmp : env.tmpPath = .ok tmp) (hkeep : env.keepOk = true) :
    cmd = actions_dir ++ "/shim.py" ∧
    ∃ evs, (run_action ex env payload_dir actions_dir action json allow work_dir).2
      = .createTemp tmp ::
        .spawn { prog := actions_dir ++ "/shim.py", args := [action, tmp], cwd := work_dir,
                 pythonpath := some (if is_payload then payload_dir else actions_dir) } ::
        evs := by
  have hcmd : cmd = actions_dir ++ "/shim.py" := by
    have hl := hlookup
    unfold lookup_action at hl
    by_cases h0 : fileNameIsNone action = true
    · simp [h0] at hl
    · rw [if_neg h0] at hl
      simp only [] at hl
      split at hl
      · simp at hl
      · simp only [Except.ok.injEq, Prod.mk.injEq] at hl
        obtain ⟨hc, hpy, hpl⟩ := hl
        rw [hpy] at hc
        simp only [if_pos rfl] at hc
        exact hc.symm
  refine ⟨hcmd, ?_⟩
  obtain ⟨tp, keep, sp, w, rm⟩ := env
  simp only at htmp hkeep
  subst hkeep
  subst htmp
  unfold run_action
  rw [hlookup, hcmd]
  simp only [Bool.not_true, Bool.false_eq_true, if_false, if_true]
  cases sp
  · exact ⟨_, rfl⟩
  · rcases w with e | out
    · cases rm <;> exact ⟨_, rfl⟩
    · obtain ⟨suc, sout, serr⟩ := out
      cases rm
      · exact ⟨_, rfl⟩
      · cases suc <;> exact ⟨_, rfl⟩

/-- Witness for C3 at a concrete input: the interpreted action `x`, found
as `d/x.py`, spawns `d/shim.py` with `x` as first argument. -/
theorem claim_C3_interpreted_runs_shim_witness :
    ("d/shim.py" : String) = "d" ++ "/shim.py" ∧
    ∃ evs, (run_action (fun q => q == "d/x.py") envRunOk "p" "d" "x" Json.null true "work").2
      = .createTemp "work/.tmpjsonXYZ" ::
        .spawn { prog := "d" ++ "/shim.py", args := ["x", "work/.tmpjsonXYZ"], cwd := "work",
                 pythonpath := some (if false then "p" else "d") } ::
        evs :=
  claim_C3_interpreted_runs_shim (fun q => q == "d/x.py") envRunOk "p" "d" "x" Json.null
    true "work" "d/shim.py" false "work/.tmpjsonXYZ" rfl rfl rfl

/-- C7 is a code bug: when `Command::spawn` fails after the temporary JSON
file has been persisted (for example, the shim is missing or the resolved
file is not executable), `run_action` returns through `?` without any
`fs::remove_file` call, leaking the temporary file; the claim says the file
is deleted on every exit path. -/
theorem claim_C7_spawn_failure_skips_delete :
    run_action (fun q => q == "p/z.py") envC7 "p" "d" "z" Json.null true "work"
      = (.error .io,
         [.createTemp "work/.tmpjsonXYZ",
          .spawn { prog := "d/shim.py", args := ["z", "work/.tmpjsonXYZ"], cwd := "work",
                   pythonpath := some "p" }]) ∧
    ((run_action (fun q => q == "p/z.py") envC7 "p" "d" "z" Json.null true "work").2.any
        (fun e => match e with | .createTemp _ => true | _ => false) = true) ∧
    ((run_action (fun q => q == "p/z.py") envC7 "p" "d" "z" Json.null true "work").2.any
        (fun e => match e with | .removeFile _ => true | _ => false) = false) :=
  ⟨rfl, rfl, rfl⟩


/-- C1: when the revocation body lacks a string `msg` or `signature`, or
the signature does not verify as `true` against the pinned certificate
key, `process_revocation` performs no side effect at all — in particular
it never calls `run_revocation_actions` or `run_action` and spawns no
subprocess (the event trace is empty) — and returns an error. -/
theorem claim_C1_verify_gates_actions (env : RevEnv) (body : Json)
    (secure_size config_actions actions_dir : String) (allow : Bool) (work_dir : String)
    (h : ¬ ∃ m s, (body.index "msg").asStr = some m ∧
        (body.index "signature").asStr = some s ∧ env.verify m s = .ok true) :
    (process_revocation env body secure_size config_actions actions_dir allow work_dir).2
      = [] ∧
    (process_revocation env body secure_size config_actions actions_dir allow
      work_dir).1.isErr = true := by
  unfold process_revocation
  rcases hs : (body.index "signature").asStr with _ | sg
  · exact ⟨rfl, rfl⟩
  · rcases hm : (body.index "msg").asStr with _ | msg
    · exact ⟨rfl, rfl⟩
    · rcases hcan : env.canonicalize with e | p
      · exact ⟨rfl, rfl⟩
      · cases hld : env.loadX509Ok
        · simp [hld, Outcome.isErr]
        · cases hpk : env.pubKeyOk
          · simp [hld, hpk, Outcome.isErr]
          · rcases hv : env.verify msg sg with e | b
            · simp [hld, hpk, hv, Outcome.isErr]
            · cases b
              · simp [hld, hpk, hv, Outcome.isErr]
              · exact absurd ⟨msg, sg, hm, hs, hv⟩ h

/-- Witness for C1: a body with string members whose signature verifies as
`Ok(false)` produces an empty trace and an error. -/
theorem claim_C1_verify_gates_actions_witness :
    (process_revocation envC1 bodyC1 "1m" "" "/usr/libexec/keylime/actions" true
      "/var/lib/keylime").2 = [] ∧
    (process_revocation envC1 bodyC1 "1m" "" "/usr/libexec/keylime/actions" true
      "/var/lib/keylime").1.isErr = true :=
  claim_C1_verify_gates_actions envC1 bodyC1 "1m" "" "/usr/libexec/keylime/actions" true
    "/var/lib/keylime"
    (by rintro ⟨m, sg, hm, hs, hv⟩; simp [envC1] at hv)

/-- C6 is a code bug: the subscriber loop is supposed to skip malformed
frames, but `serde_json::from_str(rawbody)?` propagates the parse error out
of `run_revocation_service`, terminating the loop; here the frame
`not-json` (which serde rejects) makes the iteration return the error
instead of continuing. -/
theorem claim_C6_malformed_frame_terminates_loop :
    run_revocation_service_step envC6 "1m" "" "/usr/libexec/keylime/actions" true
      "/var/lib/keylime" (.ok (.ok "not-json"))
      = .terminated (.err .serdeJson) := rfl


/-- C4 counterexample: the claim demands a 400 for any character outside
ASCII `[A-Za-z0-9]`, but the code checks Rust `char::is_alphanumeric`,
which accepts every Unicode alphanumeric character. The nonce `é`
(U+00E9, Unicode alphabetic, hence accepted by the Rust predicate, here
modelled by `isAlnumCE`) is outside `[A-Za-z0-9]`, yet the handler calls
`tpm.quote` and answers 200. -/
theorem claim_C4_counterexample :
    ("é".data.all Char.isAlphanum = false) ∧
    identity isAlnumCE 20 envIdOk "é"
      = (.success { qFix with pubkey := some "PEMKEY" }, [.tpmQuote]) :=
  ⟨by decide, rfl⟩

/-- C4 amended: for every character predicate standing for Rust
`char::is_alphanumeric`, a nonce (or mask) containing a character the
predicate rejects yields BadRequest 400 citing that parameter, with
`tpm.quote` never called (empty trace); and — since ASCII alphanumerics
are Unicode alphanumerics — every request whose nonce and mask consist
only of `[A-Za-z0-9]` passes the character check (shown by the full
success path). -/
theorem claim_C4_alnum_checks (isAlnum : Char → Bool) (maxNonceSize : Nat) :
    (∀ env nonce, nonce.data.all isAlnum = false →
      identity isAlnum maxNonceSize env nonce
        = (.error 400 ("Parameters should be strictly alphanumeric: " ++ nonce), [])) ∧
    (∀ env p, p.nonce.data.all isAlnum = false →
      integrity isAlnum maxNonceSize env p
        = (.error 400 ("nonce should be strictly alphanumeric: " ++ p.nonce), [])) ∧
    (∀ env p, p.nonce.data.all isAlnum = true → p.mask.data.all isAlnum = false →
      integrity isAlnum maxNonceSize env p
        = (.error 400 ("mask should be strictly alphanumeric: " ++ p.mask), [])) ∧
    ((∀ c, c.isAlphanum = true → isAlnum c = true) →
      (∀ env nonce q pk, nonce.data.all Char.isAlphanum = true →
        nonce.utf8ByteSize ≤ maxNonceSize → env.tpmQuote = .ok q → env.pkeyPem = .ok pk →
        identity isAlnum maxNonceSize env nonce
          = (.success { q with pubkey := some pk }, [.tpmQuote])) ∧
      (∀ env p q pk iml entry n,
        p.nonce.data.all Char.isAlphanum = true → p.mask.data.all Char.isAlphanum = true →
        p.nonce.utf8ByteSize ≤ maxNonceSize → p.partFlag = "0" → p.ima_ml_entry = none →
        env.pkeyPem = .ok pk → env.tpmQuote = .ok q → env.checkMask = .ok false →
        env.readML 0 = .ok (iml, entry, n) →
        integrity isAlnum maxNonceSize env p
          = (.success
              { q with
                  pubkey := some pk
                  ima_measurement_list := iml
                  mb_measurement_list := none
                  ima_measurement_list_entry := entry },
             [.tpmQuote, .readMeasurementList 0]))) := by
  refine ⟨?_, ?_, ?_, ?_⟩
  · intro env nonce h
    simp [identity, h]
  · intro env p h
    simp [integrity, h]
  · intro env p h1 h2
    simp [integrity, h1, h2]
  · intro hA
    constructor
    · intro env nonce q pk hascii hlen htpm hpem
      have hall : nonce.data.all isAlnum = true := by
        rw [List.all_eq_true] at hascii ⊢
        intro c hc
        exact hA c (hascii c hc)
      unfold identity
      rw [hall]
      simp only [Bool.not_true, Bool.false_eq_true, if_false]
      rw [if_neg (by omega : ¬ nonce.utf8ByteSize > maxNonceSize), htpm, hpem]
    · intro env p q pk iml entry n hn hm hlen hp0 hil hpem htpm hcm hrd
      have halln : p.nonce.data.all isAlnum = true := by
        rw [List.all_eq_true] at hn ⊢
        intro c hc
        exact hA c (hn c hc)
      have hallm : p.mask.data.all isAlnum = true := by
        rw [List.all_eq_true] at hm ⊢
        intro c hc
        exact hA c (hm c hc)
      unfold integrity
      rw [halln, hallm]
      simp only [Bool.not_true, Bool.false_eq_true, if_false]
      rw [if_neg (by omega : ¬ p.nonce.utf8ByteSize > maxNonceSize)]
      simp [hp0, hpem, hil, htpm, hcm, hrd]

/-- Witness for C4 at concrete inputs: the non-alphanumeric nonce
`abc!def` is rejected with an empty trace, and the all-ASCII-alphanumeric
nonce `N0nce` reaches a full success. -/
theorem claim_C4_alnum_checks_witness :
    identity (fun c => c.isAlphanum) 20 envIdOk "abc!def"
      = (.error 400 ("Parameters should be strictly alphanumeric: " ++ "abc!def"), []) ∧
    identity (fun c => c.isAlphanum) 20 envIdOk "N0nce"
      = (.success { qFix with pubkey := some "PEMKEY" }, [.tpmQuote]) :=
  ⟨(claim_C4_alnum_checks (fun c => c.isAlphanum) 20).1 envIdOk "abc!def" (by decide),
   ((claim_C4_alnum_checks (fun c => c.isAlphanum) 20).2.2.2 (fun c hc => hc)).1 envIdOk
     "N0nce" qFix "PEMKEY" (by decide) (by decide) rfl rfl⟩

/-- C5 counterexample: when PEM export fails in the identity handler, the
500 body message is "Unable to retrieve quote", not the claimed
"Unable to retrieve public key". -/
theorem claim_C5_counterexample :
    identity (fun c => c.isAlphanum) 20 envIdPemErr "nonceABC"
      = (.error 500 "Unable to retrieve quote", [.tpmQuote]) ∧
    ("Unable to retrieve quote" : String) ≠ "Unable to retrieve public key" :=
  ⟨rfl, by decide⟩

/-- C5 amended: on a PEM-export failure the identity handler returns 500
with body "Unable to retrieve quote" (after a successful `tpm.quote`),
while the integrity handler with `partial = "0"` returns 500 with body
"Unable to retrieve public key" (before calling `tpm.quote`). -/
theorem claim_C5_pem_failure_messages (isAlnum : Char → Bool) (maxNonceSize : Nat) :
    (∀ env nonce q, nonce.data.all isAlnum = true →
      nonce.utf8ByteSize ≤ maxNonceSize → env.tpmQuote = .ok q →
      env.pkeyPem = .error () →
      identity isAlnum maxNonceSize env nonce
        = (.error 500 "Unable to retrieve quote", [.tpmQuote])) ∧
    (∀ env p, p.nonce.data.all isAlnum = true → p.mask.data.all isAlnum = true →
      p.nonce.utf8ByteSize ≤ maxNonceSize → p.partFlag = "0" →
      env.pkeyPem = .error () →
      integrity isAlnum maxNonceSize env p
        = (.error 500 "Unable to retrieve public key", [])) := by
  constructor
  · intro env nonce q hall hlen htpm hpem
    unfold identity
    rw [hall]
    simp only [Bool.not_true, Bool.false_eq_true, if_false]
    rw [if_neg (by omega : ¬ nonce.utf8ByteSize > maxNonceSize), htpm, hpem]
  · intro env p h1 h2 hlen hp0 hpem
    unfold integrity
    rw [h1, h2]
    simp only [Bool.not_true, Bool.false_eq_true, if_false]
    rw [if_neg (by omega : ¬ p.nonce.utf8ByteSize > maxNonceSize)]
    simp [hp0, hpem]

/-- Witness for C5 at concrete inputs. -/
theorem claim_C5_pem_failure_messages_witness :
    identity (fun c => c.isAlphanum) 20 envIdPemErr "N0nce"
      = (.error 500 "Unable to retrieve quote", [.tpmQuote]) ∧
    integrity (fun c => c.isAlphanum) 20 envIntegPemErr
        { pFix with partFlag := "0" }
      = (.error 500 "Unable to retrieve public key", []) :=
  ⟨(claim_C5_pem_failure_messages (fun c => c.isAlphanum) 20).1 envIdPemErr "N0nce" qFix
      (by decide) (by decide) rfl rfl,
   (claim_C5_pem_failure_messages (fun c => c.isAlphanum) 20).2 envIntegPemErr
      { pFix with partFlag := "0" } (by decide) (by decide) (by decide) rfl rfl⟩


/-- C8: in every 200 integrity response `mb_measurement_list` is present
iff `check_mask(mask, PCR0)` returned true and the measured-boot file read
succeeded; a failed read with the bit set is non-fatal (200 with the field
absent); a mask-parse error yields 500 "Unable to retrieve quote". -/
theorem claim_C8_measuredboot (isAlnum : Char → Bool) (maxNonceSize : Nat) :
    (∀ env p q evs,
      integrity isAlnum maxNonceSize env p = (.success q, evs) →
      (q.mb_measurement_list ≠ none ↔
        env.checkMask = .ok true ∧ ∃ ml, env.mbRead = .ok ml)) ∧
    (∀ env p q iml entry n,
      p.nonce.data.all isAlnum = true → p.mask.data.all isAlnum = true →
      p.nonce.utf8ByteSize ≤ maxNonceSize → p.partFlag = "1" → p.ima_ml_entry = none →
      env.tpmQuote = .ok q → env.checkMask = .ok true → env.mbRead = .error () →
      env.readML 0 = .ok (iml, entry, n) →
      integrity isAlnum maxNonceSize env p
        = (.success
            { q with
                pubkey := none
                ima_measurement_list := iml
                mb_measurement_list := none
                ima_measurement_list_entry := entry },
           [.tpmQuote, .readMeasurementList 0])) ∧
    (∀ env p q,
      p.nonce.data.all isAlnum = true → p.mask.data.all isAlnum = true →
      p.nonce.utf8ByteSize ≤ maxNonceSize → p.partFlag = "1" →
      env.tpmQuote = .ok q → env.checkMask = .error () →
      integrity isAlnum maxNonceSize env p
        = (.error 500 "Unable to retrieve quote", [.tpmQuote])) := by
  refine ⟨?_, ?_, ?_⟩
  · intro env p q evs hq
    unfold integrity at hq
    repeat' split at hq
    all_goals try simp_all
    all_goals try (split at hq <;> try simp_all)
    all_goals
      obtain ⟨hq1, hq2⟩ := hq
    all_goals subst hq1
    all_goals simp_all
  · intro env p q iml entry n h1 h2 hlen hp1 hil htpm hcm hmb hrd
    unfold integrity
    rw [h1, h2]
    simp only [Bool.not_true, Bool.false_eq_true, if_false]
    rw [if_neg (by omega : ¬ p.nonce.utf8ByteSize > maxNonceSize)]
    have hp0 : p.partFlag = "0" ↔ False := by simp [hp1]
    simp [hp1, hil, htpm, hcm, hmb, hrd]
  · intro env p q h1 h2 hlen hp1 htpm hcm
    unfold integrity
    rw [h1, h2]
    simp only [Bool.not_true, Bool.false_eq_true, if_false]
    rw [if_neg (by omega : ¬ p.nonce.utf8ByteSize > maxNonceSize)]
    simp [hp1, htpm, hcm]

/-- Witness for C8 at concrete inputs: measured boot masked in but
unreadable still answers 200 without the field; a mask-parse failure
answers 500. -/
theorem claim_C8_measuredboot_witness :
    integrity (fun c => c.isAlphanum) 20 envIntegMbErr pFix
      = (.success
          { qFix with
              pubkey := none
              ima_measurement_list := some "imalog"
              mb_measurement_list := none
              ima_measurement_list_entry := none },
         [.tpmQuote, .readMeasurementList 0]) ∧
    integrity (fun c => c.isAlphanum) 20 envIntegMaskErr pFix
      = (.error 500 "Unable to retrieve quote", [.tpmQuote]) :=
  ⟨(claim_C8_measuredboot (fun c => c.isAlphanum) 20).2.1 envIntegMbErr pFix qFix
      (some "imalog") none 5 (by decide) (by decide) (by decide) rfl rfl rfl rfl rfl rfl,
   (claim_C8_measuredboot (fun c => c.isAlphanum) 20).2.2 envIntegMaskErr pFix qFix
      (by decide) (by decide) (by decide) rfl rfl rfl⟩

set_option maxHeartbeats 1600000 in
/-- C9: the IMA offset handed to `read_measurement_list` is always the
`u64` parse of `ima_ml_entry` with missing or unparseable values collapsed
to 0, and a 400 rejection never depends on `ima_ml_entry`. -/
theorem claim_C9_ima_entry_collapse (isAlnum : Char → Bool) (maxNonceSize : Nat) :
    (∀ env p r evs n,
      integrity isAlnum maxNonceSize env p = (r, evs) →
      Event.readMeasurementList n ∈ evs →
      n = (match p.ima_ml_entry with
           | none => 0
           | some idx => (parseU64 idx).getD 0)) ∧
    (∀ (env : IntegEnv) (p : IntegParam) e1 e2 msg evs,
      integrity isAlnum maxNonceSize env { p with ima_ml_entry := e1 }
        = (.error 400 msg, evs) →
      integrity isAlnum maxNonceSize env { p with ima_ml_entry := e2 }
        = (.error 400 msg, evs)) := by
  constructor
  · intro env p r evs n hq hmem
    unfold integrity at hq
    repeat' split at hq
    all_goals try simp_all
    all_goals try (split at hq <;> try simp_all)
    all_goals
      obtain ⟨hq1, hq2⟩ := hq
    all_goals subst hq2
    all_goals simp_all
  · intro env p e1 e2 msg evs h
    obtain ⟨nonce, mask, pf, ima⟩ := p
    unfold integrity at h ⊢
    simp only [] at h ⊢
    by_cases c1 : (!(nonce.data.all isAlnum)) = true
    · rw [if_pos c1] at h ⊢
      exact h
    · rw [if_neg c1] at h ⊢
      by_cases c2 : (!(mask.data.all isAlnum)) = true
      · rw [if_pos c2] at h ⊢
        exact h
      · rw [if_neg c2] at h ⊢
        by_cases c3 : nonce.utf8ByteSize > maxNonceSize
        · rw [if_pos c3] at h ⊢
          exact h
        · rw [if_neg c3] at h ⊢
          rcases hps : (if pf = "0" then
              match env.pkeyPem with
              | Except.ok pubkey => Except.ok (some pubkey)
              | Except.error _ =>
                Except.error (Resp.error 500 "Unable to retrieve public key")
            else if pf = "1" then Except.ok none
            else Except.error (Resp.error 400
              "uri must contain key \x27partial\x27 and value \x270\x27 or \x271\x27") :
              Except Resp (Option String)) with r | pk
          · simp only [hps] at h ⊢
            exact h
          · simp only [hps] at h ⊢
            rcases htpm : env.tpmQuote with u | q
            · simp only [htpm] at h
              simp at h
            · simp only [htpm] at h
              rcases hcm : env.checkMask with u | b
              · simp only [hcm] at h
                simp at h
              · cases b
                · simp only [hcm] at h
                  split at h
                  · simp at h
                  · simp at h
                · simp only [hcm] at h
                  rcases hmb : env.mbRead with u | ml
                  · simp only [hmb] at h
                    split at h
                    · simp at h
                    · simp at h
                  · simp only [hmb] at h
                    split at h
                    · simp at h
                    · simp at h


/-- Witness for C9 at concrete inputs: the unparseable offset `zz`
collapses to 0, and a nonce-rejected request yields the same 400 with the
offset parameter replaced. -/
theorem claim_C9_ima_entry_collapse_witness :
    ((0 : Nat) = (parseU64 "zz").getD 0) ∧
    integrity (fun c => c.isAlphanum) 20 envIntegOk
        { pFix with nonce := "bad!", ima_ml_entry := none }
      = (.error 400 ("nonce should be strictly alphanumeric: " ++ "bad!"), []) :=
  ⟨(claim_C9_ima_entry_collapse (fun c => c.isAlphanum) 20).1 envIntegOk
      { pFix with ima_ml_entry := some "zz" }
      (.success
        { qFix with
            pubkey := none
            ima_measurement_list := some "imalog"
            mb_measurement_list := none
            ima_measurement_list_entry := none })
      [.tpmQuote, .readMeasurementList 0] 0 rfl (by simp),
   (claim_C9_ima_entry_collapse (fun c => c.isAlphanum) 20).2 envIntegOk
      { pFix with nonce := "bad!" } (some "7") none
      ("nonce should be strictly alphanumeric: " ++ "bad!") [] rfl⟩

end Keylime
